import Mathlib

/-!
Verification of the EVM core (valids bitmap, stack, memory, gasometer,
stack executor) against its natural-language specification.

The Rust sources are embedded shallowly: machine integers become `Nat`
(with explicit `% 2^64` where u64/usize wrapping matters and explicit
bound checks where the source uses `checked_*` arithmetic), `Vec<u8>`
becomes `List Nat`, `BTreeMap` becomes an association list with unique
keys maintained by `insertAcc`, and fallible operations return `Except`
paired with the post-state (the Rust methods mutate `self` and return
`Result`, so the pair carries the state even on the error path).
-/

namespace Evm

/-- u64 / usize modulus (the sources target a 64-bit platform). -/
def U64 : Nat := 2 ^ 64

/-- U256 modulus. -/
def U256MOD : Nat := 2 ^ 256

/-- Exit errors, from core/src/error.rs (the variants used by the embedded code). -/
inductive ExitError where
  | OutOfGas
  | StackUnderflow
  | StackOverflow
  | InvalidJump
  | InvalidRange
  | OutOfFund
deriving DecidableEq, Repr

/-- Fatal exits, from core/src/error.rs (the variant used by Memory). -/
inductive ExitFatal where
  | NotSupported
deriving DecidableEq, Repr

/-! ## Valids (core/src/valids.rs)

The opcode module (core/src/opcode.rs) is not among the sources, so the
two facts `Valids::new` needs from it are modelled from the spec, section 6
(opcode numeric assignments): JUMPDEST is byte 0x5b, and `op.is_push()`
is `Some(op - 0x5f)` exactly for bytes 0x60..=0x7f.  `Opcode::parse`
errors on unassigned bytes; both the parse-error branch and the
non-jumpdest non-push branch of the scan advance by one, so they are
collapsed into the final `else` of `skipOf`. -/

/-- Modelled from the spec: PUSHn opcodes are the bytes 0x60..=0x7f (spec section 6). -/
def isPushByte (b : Nat) : Bool := 0x60 ≤ b && b ≤ 0x7f

/-- Per-byte advance of the `Valids::new` scan: 1 for JUMPDEST, `n + 1`
for PUSHn (payload is skipped), 1 otherwise. -/
def skipOf (op : Nat) : Nat :=
  if op = 0x5b then 1
  else if isPushByte op then (op - 0x5f) + 1
  else 1

/-- The mapping of valid jump destinations, `struct Valids`. -/
structure Valids where
  data : List Nat
deriving DecidableEq, Repr

/-- The loop body of `Valids::new`: starting from index `i`, mark every
JUMPDEST byte reached by the scan in the accumulator `v`. -/
def validsGo (code : List Nat) (v : List Nat) (i : Nat) : List Nat :=
  if _h : i < code.length then
    validsGo code (if code.getD i 0 = 0x5b then v.set i 1 else v) (i + skipOf (code.getD i 0))
  else v
termination_by code.length - i
decreasing_by
  have h1 : 1 ≤ skipOf (code.getD i 0) := by
    unfold skipOf
    split
    · omega
    · split <;> omega
  omega

/-- `Valids::new`: a zero-initialised byte map of the code length, filled
by the left-to-right scan. -/
def Valids.new (code : List Nat) : Valids :=
  ⟨validsGo code (List.replicate code.length 0) 0⟩

/-- `Valids::is_valid`. -/
def Valids.is_valid (v : Valids) (position : Nat) : Bool :=
  if position ≥ v.data.length then false
  else if v.data.getD position 0 = 0 then false
  else true

/-- Specification-side notion: the positions the scan visits, i.e. the
instruction starts of the code (PUSH payload bytes are skipped). -/
def instPositions (code : List Nat) (i : Nat) : List Nat :=
  if _h : i < code.length then
    i :: instPositions code (i + skipOf (code.getD i 0))
  else []
termination_by code.length - i
decreasing_by
  have h1 : 1 ≤ skipOf (code.getD i 0) := by
    unfold skipOf
    split
    · omega
    · split <;> omega
  omega

/-- Specification-side notion: position `i` lies inside the payload of a
preceding PUSHn instruction of the code scanned from `s`. -/
def coveredBy (code : List Nat) (s i : Nat) : Prop :=
  ∃ j ∈ instPositions code s, j < i ∧ isPushByte (code.getD j 0) = true ∧
    i ≤ j + (code.getD j 0 - 0x5f)

/-! ## Stack (core/src/stack.rs)

Stack values: the Rust stack stores `U256` and converts `H256` arguments
with `U256::from_big_endian_fast` / `into_big_endian_fast`, a bijection
between 32-byte arrays and 256-bit words; both types are modelled as
`Nat`, which makes the conversions the identity.  The top of the stack
is the end of the list (`Vec::push`/`Vec::pop`). -/

structure Stack where
  data : List Nat
  limit : Nat
deriving DecidableEq, Repr

/-- `Stack::new`. -/
def Stack.new (limit : Nat) : Stack := ⟨[], limit⟩

/-- `Stack::push`: overflow check, then `Vec::push`.  The pair carries
the post-state; on error the stack is returned unchanged. -/
def Stack.push (s : Stack) (value : Nat) : Except ExitError Unit × Stack :=
  if s.data.length + 1 > s.limit then (.error .StackOverflow, s)
  else (.ok (), ⟨s.data ++ [value], s.limit⟩)

/-- `Stack::push_u256` (same body as `push` modulo the H256 conversion). -/
def Stack.push_u256 (s : Stack) (value : Nat) : Except ExitError Unit × Stack :=
  if s.data.length + 1 > s.limit then (.error .StackOverflow, s)
  else (.ok (), ⟨s.data ++ [value], s.limit⟩)

/-- `Stack::pop` (the H256 conversion of the popped value is the identity here). -/
def Stack.pop (s : Stack) : Except ExitError Nat × Stack :=
  match s.data.getLast? with
  | some d => (.ok d, ⟨s.data.dropLast, s.limit⟩)
  | none => (.error .StackUnderflow, s)

/-- `Stack::pop_u256`. -/
def Stack.pop_u256 (s : Stack) : Except ExitError Nat × Stack :=
  match s.data.getLast? with
  | some d => (.ok d, ⟨s.data.dropLast, s.limit⟩)
  | none => (.error .StackUnderflow, s)

/-- `Stack::peek`: read-only. -/
def Stack.peek (s : Stack) (no_from_top : Nat) : Except ExitError Nat :=
  if s.data.length > no_from_top then
    .ok (s.data.getD (s.data.length - no_from_top - 1) 0)
  else .error .StackUnderflow

/-- `Stack::set`. -/
def Stack.set (s : Stack) (no_from_top : Nat) (val : Nat) : Except ExitError Unit × Stack :=
  if s.data.length > no_from_top then
    (.ok (), ⟨s.data.set (s.data.length - no_from_top - 1) val, s.limit⟩)
  else (.error .StackUnderflow, s)

/-- `Stack::dup`: underflow check, then `push_u256` of the indexed value. -/
def Stack.dup (s : Stack) (no_from_top : Nat) : Except ExitError Unit × Stack :=
  if s.data.length ≤ no_from_top then (.error .StackUnderflow, s)
  else s.push_u256 (s.data.getD (s.data.length - no_from_top - 1) 0)

/-- `Stack::swap`: swap the top with the value `no_from_top` below it. -/
def Stack.swap (s : Stack) (no_from_top : Nat) : Except ExitError Unit × Stack :=
  if s.data.length ≤ no_from_top then (.error .StackUnderflow, s)
  else
    let a := s.data.length - no_from_top - 1
    let b := s.data.length - 1
    (.ok (), ⟨(s.data.set a (s.data.getD b 0)).set b (s.data.getD a 0), s.limit⟩)

/-- One operation of the stack interface, for quantifying over sequences. -/
inductive StackOp where
  | push (v : Nat)
  | push_u256 (v : Nat)
  | pop
  | pop_u256
  | peek (n : Nat)
  | set (n : Nat) (v : Nat)
  | dup (n : Nat)
  | swap (n : Nat)
deriving DecidableEq, Repr

/-- The stack state after one operation (failed operations leave the
state the operation returned, which is the unchanged stack). -/
def Stack.applyOp (s : Stack) : StackOp → Stack
  | .push v => (s.push v).2
  | .push_u256 v => (s.push_u256 v).2
  | .pop => (s.pop).2
  | .pop_u256 => (s.pop_u256).2
  | .peek _ => s
  | .set n v => (s.set n v).2
  | .dup n => (s.dup n).2
  | .swap n => (s.swap n).2

/-- The stack state after a sequence of operations. -/
def Stack.applyOps (s : Stack) (ops : List StackOp) : Stack :=
  ops.foldl Stack.applyOp s

/-! ## Memory (core/src/memory.rs) -/

structure Memory where
  data : List Nat
  effective_len : Nat
  limit : Nat
deriving DecidableEq, Repr

/-- `Memory::new`. -/
def Memory.new (limit : Nat) : Memory := ⟨[], 0, limit⟩

/-- `Memory::resize_end`: round `endv` up to a multiple of 32 (the
`checked_add(32)` guards usize overflow), then grow `effective_len`. -/
def Memory.resize_end (m : Memory) (endv : Nat) : Except ExitError Memory :=
  if endv % 32 = 0 then
    .ok { m with effective_len := max m.effective_len endv }
  else if endv + 32 < U64 then
    .ok { m with effective_len := max m.effective_len (endv + 32 - endv % 32) }
  else .error .InvalidRange

/-- `Memory::resize_offset`: no-op on zero length; the `checked_add`
guards usize overflow of `offset + len`. -/
def Memory.resize_offset (m : Memory) (offset len : Nat) : Except ExitError Memory :=
  if len = 0 then .ok m
  else if offset + len < U64 then m.resize_end (offset + len)
  else .error .InvalidRange

/-- `Memory::get`: always returns `size` bytes; bytes past the buffer end
are zero, and a `checked_add` overflow of `offset + size` yields all zeros. -/
def Memory.get (m : Memory) (offset size : Nat) : List Nat :=
  if offset ≥ m.data.length then List.replicate size 0
  else if offset + size ≥ U64 then List.replicate size 0
  else
    let e := min (offset + size) m.data.length
    (m.data.drop offset).take (e - offset) ++ List.replicate (size - (e - offset)) 0

/-- `Memory::set`: bound check against `limit` (usize overflow of
`offset + target_size` also fails as NotSupported), lazily grow the
buffer, then write `value` truncated to `target_size` and zero-fill the
rest of the target region. -/
def Memory.set (m : Memory) (offset : Nat) (value : List Nat) (target_size : Option Nat) :
    Except ExitFatal Memory :=
  let ts := target_size.getD value.length
  if offset + ts ≥ U64 then .error .NotSupported
  else if offset + ts > m.limit then .error .NotSupported
  else
    let padded := if m.data.length < offset + ts
      then m.data ++ List.replicate (offset + ts - m.data.length) 0
      else m.data
    let value_size := min value.length ts
    let filled := value.take value_size ++ List.replicate (ts - value_size) 0
    .ok { m with data := padded.take offset ++ filled ++ padded.drop (offset + ts) }

/-- `Memory::copy_large`: slice the source tolerating out-of-range
offsets (reading nothing), then `set` with `Some len`. -/
def Memory.copy_large (m : Memory) (memory_offset data_offset len : Nat) (data : List Nat) :
    Except ExitFatal Memory :=
  let data_by_offset :=
    if data_offset + len ≥ U64 then []
    else if data_offset > data.length then []
    else (data.drop data_offset).take (min (data_offset + len) data.length - data_offset)
  m.set memory_offset data_by_offset (some len)

/-- One memory operation, for quantifying over sequences. -/
inductive MemOp where
  | resize_offset (o l : Nat)
  | resize_end (e : Nat)
  | set (o : Nat) (v : List Nat) (t : Option Nat)
  | copy_large (mo dofs l : Nat) (d : List Nat)
deriving DecidableEq, Repr

/-- One successful memory operation (`none` when the operation fails). -/
def Memory.applyOp (m : Memory) : MemOp → Option Memory
  | .resize_offset o l => (m.resize_offset o l).toOption
  | .resize_end e => (m.resize_end e).toOption
  | .set o v t => (m.set o v t).toOption
  | .copy_large mo dofs l d => (m.copy_large mo dofs l d).toOption

/-- The memory after a sequence of successful operations. -/
def Memory.applyOps (m : Memory) (ops : List MemOp) : Option Memory :=
  ops.foldlM Memory.applyOp m

/-! ## Gas schedule constants (gasometer/src/consts.rs)

The consts module is not among the sources.  Modelled from the spec:
every value below is given by the cost table in spec section 4.4, except
`G_BLOCKHASH` and `R_SUICIDE`, which the spec does not fix and which take
the canonical schedule values; no claim depends on those two. -/

def G_ZERO : Nat := 0
def G_BASE : Nat := 2
def G_VERYLOW : Nat := 3
def G_LOW : Nat := 5
def G_MID : Nat := 8
def G_HIGH : Nat := 10
def G_JUMPDEST : Nat := 1
def G_CREATE : Nat := 32000
def G_CALLVALUE : Nat := 9000
def G_NEWACCOUNT : Nat := 25000
def G_EXP : Nat := 10
def G_MEMORY : Nat := 3
def G_COPY : Nat := 3
def G_SHA3 : Nat := 30
def G_SHA3WORD : Nat := 6
def G_LOG : Nat := 375
def G_LOGDATA : Nat := 8
def G_LOGTOPIC : Nat := 375
def G_BLOCKHASH : Nat := 20
def G_CODEDEPOSIT : Nat := 200
def R_SUICIDE : Int := 24000

/-- Modelled from the spec: the runtime crate module defining `Config` /
`CONFIG` is not among the sources.  The fields are exactly those the
gasometer and executor sources read from `CONFIG`; the flag and value
vocabulary is spec section 6. -/
structure Config where
  sstore_gas_metering : Bool
  sstore_revert_under_stipend : Bool
  refund_sstore_clears : Int
  gas_sload : Nat
  gas_sstore_set : Nat
  gas_sstore_reset : Nat
  call_stipend : Nat
  estimate : Bool
  gas_call : Nat
  gas_expbyte : Nat
  gas_ext_code : Nat
  gas_balance : Nat
  gas_ext_code_hash : Nat
  gas_suicide : Nat
  gas_suicide_new_account : Nat
  empty_considered_exists : Bool
  err_on_call_with_more_gas : Bool
  gas_transaction_call : Nat
  gas_transaction_create : Nat
  gas_transaction_zero_data : Nat
  gas_transaction_non_zero_data : Nat
deriving DecidableEq, Repr

/-- Modelled from the spec: the Istanbul-schedule configuration, with the
numeric values of the cost table in spec section 4.4 and the flag values
of section 6 (net metering on, EIP-150/161 behaviour on, `estimate` off). -/
def istanbulConfig : Config where
  sstore_gas_metering := true
  sstore_revert_under_stipend := true
  refund_sstore_clears := 15000
  gas_sload := 800
  gas_sstore_set := 20000
  gas_sstore_reset := 5000
  call_stipend := 2300
  estimate := false
  gas_call := 700
  gas_expbyte := 50
  gas_ext_code := 700
  gas_balance := 700
  gas_ext_code_hash := 700
  gas_suicide := 5000
  gas_suicide_new_account := 25000
  empty_considered_exists := false
  err_on_call_with_more_gas := false
  gas_transaction_call := 21000
  gas_transaction_create := 53000
  gas_transaction_zero_data := 4
  gas_transaction_non_zero_data := 16

/-! ## Gasometer (gasometer/src/lib.rs, gasometer/src/costs.rs) -/

/-- Checked `U256` addition (overflow is `OutOfGas`). -/
def u256chkAdd (a b : Nat) : Except ExitError Nat :=
  if a + b < U256MOD then .ok (a + b) else .error .OutOfGas

/-- Checked `U256` multiplication (overflow is `OutOfGas`). -/
def u256chkMul (a b : Nat) : Except ExitError Nat :=
  if a * b < U256MOD then .ok (a * b) else .error .OutOfGas

/-- The `gas > U256::from(u64::MAX)` guard ending the cost functions. -/
def u64guard (g : Nat) : Except ExitError Nat :=
  if g > U64 - 1 then .error .OutOfGas else .ok g

/-- An i64 value reinterpreted as u64 (the `refunded_gas as u64` cast). -/
def i64AsU64 (x : Int) : Nat := (x % (2 ^ 64 : Int)).toNat

/-- Wrapping i64 addition result normalisation. -/
def i64wrap (x : Int) : Int := (x + 2 ^ 63) % (2 ^ 64 : Int) - 2 ^ 63

/-- Modelled from the spec: gasometer/src/utils.rs is not among the
sources; `log2floor` is the floor of the base-2 logarithm, so that
`log2floor p / 8 + 1` is the byte length of `p` in the EXP cost of spec
section 4.4 (only ever applied to nonzero powers). -/
def log2floor (p : Nat) : Nat := Nat.log2 p

/-- Modelled from the spec: gasometer/src/memory.rs is not among the
sources; per spec section 4.4 the memory-expansion cost for word count
`a` is `3·a + a²/512`, with checked u64 arithmetic (overflow is OutOfGas). -/
def memory_gas (a : Nat) : Except ExitError Nat :=
  if G_MEMORY * a ≥ U64 then .error .OutOfGas
  else if a * a ≥ U64 then .error .OutOfGas
  else if G_MEMORY * a + a * a / 512 ≥ U64 then .error .OutOfGas
  else .ok (G_MEMORY * a + a * a / 512)

/-- `costs::call_extra_check` (pre-EIP-150 behaviour flag). -/
def call_extra_check (cfg : Config) (gas : Nat) (after_gas : Nat) : Except ExitError Unit :=
  if cfg.err_on_call_with_more_gas && after_gas < gas then .error .OutOfGas else .ok ()

/-- `costs::suicide_refund`. -/
def suicide_refund (already_removed : Bool) : Int :=
  if already_removed then 0 else R_SUICIDE

/-- `costs::sstore_refund`.  Storage words are modelled as `Nat`
(`H256::default()` is 0). -/
def sstore_refund (cfg : Config) (original current new : Nat) : Int :=
  if cfg.sstore_gas_metering then
    if current = new then 0
    else
      if original = current ∧ new = 0 then cfg.refund_sstore_clears
      else
        let refund : Int := 0
        let refund := if original ≠ 0 then
            (if current = 0 then refund - cfg.refund_sstore_clears
             else if new = 0 then refund + cfg.refund_sstore_clears
             else refund)
          else refund
        let refund := if original = new then
            (if original = 0 then refund + ((cfg.gas_sstore_set - cfg.gas_sload : Nat) : Int)
             else refund + ((cfg.gas_sstore_reset - cfg.gas_sload : Nat) : Int))
          else refund
        refund
  else
    if current ≠ 0 ∧ new = 0 then cfg.refund_sstore_clears else 0

/-- `costs::create2_cost`. -/
def create2_cost (len : Nat) : Except ExitError Nat := do
  let sha_addup_base := len / 32 + (if len % 32 = 0 then 0 else 1)
  let sha_addup ← u256chkMul G_SHA3WORD sha_addup_base
  let gas ← u256chkAdd G_CREATE sha_addup
  u64guard gas

/-- `costs::exp_cost`. -/
def exp_cost (cfg : Config) (power : Nat) : Except ExitError Nat :=
  if power = 0 then .ok G_EXP
  else do
    let t ← u256chkMul cfg.gas_expbyte (log2floor power / 8 + 1)
    let gas ← u256chkAdd G_EXP t
    u64guard gas

/-- `costs::verylowcopy_cost`. -/
def verylowcopy_cost (len : Nat) : Except ExitError Nat := do
  let wordd := len / 32
  let wordr := len % 32
  let t ← u256chkMul G_COPY (if wordr = 0 then wordd else wordd + 1)
  let gas ← u256chkAdd G_VERYLOW t
  u64guard gas

/-- `costs::extcodecopy_cost`. -/
def extcodecopy_cost (cfg : Config) (len : Nat) : Except ExitError Nat := do
  let wordd := len / 32
  let wordr := len % 32
  let t ← u256chkMul G_COPY (if wordr = 0 then wordd else wordd + 1)
  let gas ← u256chkAdd cfg.gas_ext_code t
  u64guard gas

/-- `costs::log_cost`. -/
def log_cost (n : Nat) (len : Nat) : Except ExitError Nat := do
  let t ← u256chkMul G_LOGDATA len
  let s ← u256chkAdd G_LOG t
  let gas ← u256chkAdd s (G_LOGTOPIC * n)
  u64guard gas

/-- `costs::sha3_cost`. -/
def sha3_cost (len : Nat) : Except ExitError Nat := do
  let wordd := len / 32
  let wordr := len % 32
  let t ← u256chkMul G_SHA3WORD (if wordr = 0 then wordd else wordd + 1)
  let gas ← u256chkAdd G_SHA3 t
  u64guard gas

/-- `costs::sstore_cost` (net metering per EIP-2200 when the flag is on). -/
def sstore_cost (cfg : Config) (original current new : Nat) (gas : Nat) :
    Except ExitError Nat :=
  if cfg.sstore_gas_metering then
    if cfg.sstore_revert_under_stipend ∧ gas < cfg.call_stipend then .error .OutOfGas
    else .ok (if new = current then cfg.gas_sload
      else if original = current then
        (if original = 0 then cfg.gas_sstore_set else cfg.gas_sstore_reset)
      else cfg.gas_sload)
  else
    .ok (if current = 0 ∧ new ≠ 0 then cfg.gas_sstore_set else cfg.gas_sstore_reset)

/-- `costs::suicide_cost`. -/
def suicide_cost (cfg : Config) (value : Nat) (target_exists : Bool) : Nat :=
  let eip161 := !cfg.empty_considered_exists
  let should_charge_topup :=
    if eip161 then value ≠ 0 ∧ target_exists = false else target_exists = false
  let suicide_gas_topup := if should_charge_topup then cfg.gas_suicide_new_account else 0
  (cfg.gas_suicide + suicide_gas_topup) % U64

/-- `costs::call_cost` with its helpers `xfer_cost` and `new_cost`. -/
def call_cost (cfg : Config) (value : Nat)
    (is_call_or_callcode is_call_or_staticcall new_account : Bool) : Nat :=
  let transfers_value := value ≠ 0
  let xfer := if is_call_or_callcode ∧ transfers_value then G_CALLVALUE else 0
  let eip161 := !cfg.empty_considered_exists
  let newc :=
    if is_call_or_staticcall then
      if eip161 then
        (if transfers_value ∧ new_account then G_NEWACCOUNT else 0)
      else if new_account then G_NEWACCOUNT else 0
    else 0
  (cfg.gas_call + xfer + newc) % U64

/-- The `GasCost` enum. -/
inductive GasCost where
  | Zero
  | Base
  | VeryLow
  | Low
  | Invalid
  | ExtCodeSize
  | Balance
  | BlockHash
  | ExtCodeHash
  | Call (value : Nat) (gas : Nat) (target_exists : Bool)
  | CallCode (value : Nat) (gas : Nat) (target_exists : Bool)
  | DelegateCall (gas : Nat) (target_exists : Bool)
  | StaticCall (gas : Nat) (target_exists : Bool)
  | Suicide (value : Nat) (target_exists : Bool) (already_removed : Bool)
  | SStore (original : Nat) (current : Nat) (new : Nat)
  | Sha3 (len : Nat)
  | Log (n : Nat) (len : Nat)
  | ExtCodeCopy (len : Nat)
  | VeryLowCopy (len : Nat)
  | Exp (power : Nat)
  | Create
  | Create2 (len : Nat)
  | SLoad
deriving DecidableEq, Repr

/-- The `MemoryCost` request (offset and length are U256 stack values). -/
structure MemoryCost where
  offset : Nat
  len : Nat
deriving DecidableEq, Repr

/-- The `TransactionCost` enum. -/
inductive TransactionCost where
  | Call (zero_data_len non_zero_data_len : Nat)
  | Create (zero_data_len non_zero_data_len : Nat)
deriving DecidableEq, Repr

/-- The unpoisoned gasometer state, `struct Inner`. -/
structure Inner where
  memory_cost : Nat
  used_gas : Nat
  refunded_gas : Int
deriving DecidableEq, Repr

/-- The gasometer.  `inner` is `none` when poisoned; the error the
source stores in the poisoned `Result` is `OutOfGas` on every poisoning
path, so the poisoned error value is not carried separately. -/
structure Gasometer where
  gas_limit : Nat
  inner : Option Inner
deriving DecidableEq, Repr

/-- `Gasometer::new`. -/
def Gasometer.new (gas_limit : Nat) : Gasometer :=
  ⟨gas_limit, some ⟨0, 0, 0⟩⟩

/-- `Gasometer::gas` (remaining gas; 0 when poisoned).  The
`expect("Checked via record")` on the memory gas is modelled as a
default of 0; the record functions never store a `memory_cost` whose
`memory_gas` fails, so that default is unreachable for gasometers built
by this interface. -/
def Gasometer.gas (g : Gasometer) : Nat :=
  match g.inner with
  | some inn => g.gas_limit - inn.used_gas - ((memory_gas inn.memory_cost).toOption.getD 0)
  | none => 0

/-- `Gasometer::total_used_gas` (`gas_limit` when poisoned). -/
def Gasometer.total_used_gas (g : Gasometer) : Nat :=
  match g.inner with
  | some inn => (inn.used_gas + ((memory_gas inn.memory_cost).toOption.getD 0)) % U64
  | none => g.gas_limit

/-- `Gasometer::refunded_gas` (0 when poisoned). -/
def Gasometer.refunded_gas (g : Gasometer) : Int :=
  match g.inner with
  | some inn => inn.refunded_gas
  | none => 0

/-- `Gasometer::used_gas`: total used gas minus the refund, the refund
being capped at half and cast from i64 to u64 (`rg as u64`). -/
def Gasometer.used_gas (g : Gasometer) : Nat :=
  match g.inner with
  | some inn =>
    let mg := (memory_gas inn.memory_cost).toOption.getD 0
    let tug := (inn.used_gas + mg) % U64
    tug - min (tug / 2) (i64AsU64 inn.refunded_gas)
  | none => 0

/-- `Gasometer::fail`. -/
def Gasometer.fail (g : Gasometer) : ExitError × Gasometer :=
  (.OutOfGas, { g with inner := none })

/-- `Gasometer::record_cost`. -/
def Gasometer.record_cost (g : Gasometer) (cost : Nat) : Except ExitError Unit × Gasometer :=
  let all_gas_cost := (g.total_used_gas + cost) % U64
  if g.gas_limit < all_gas_cost then (.error .OutOfGas, { g with inner := none })
  else
    match g.inner with
    | none => (.error .OutOfGas, g)
    | some inn =>
      (.ok (), { g with inner := some { inn with used_gas := (inn.used_gas + cost) % U64 } })

/-- `Gasometer::record_refund`. -/
def Gasometer.record_refund (g : Gasometer) (refund : Int) : Except ExitError Unit × Gasometer :=
  match g.inner with
  | none => (.error .OutOfGas, g)
  | some inn =>
    (.ok (), { g with inner := some { inn with refunded_gas := i64wrap (inn.refunded_gas + refund) } })

/-- `Gasometer::record_deposit`. -/
def Gasometer.record_deposit (g : Gasometer) (len : Nat) : Except ExitError Unit × Gasometer :=
  g.record_cost ((len * G_CODEDEPOSIT) % U64)

/-- `Gasometer::record_stipend` (the call sites guarantee the stipend
never exceeds the recorded used gas, so u64 subtraction is exact). -/
def Gasometer.record_stipend (g : Gasometer) (stipend : Nat) : Except ExitError Unit × Gasometer :=
  match g.inner with
  | none => (.error .OutOfGas, g)
  | some inn =>
    (.ok (), { g with inner := some { inn with used_gas := inn.used_gas - stipend } })

/-- `Inner::memory_cost`: the new memory word count for a request
(usize overflow of the U256 `end` is OutOfGas). -/
def Inner.memory_cost_fn (inn : Inner) (m : MemoryCost) : Except ExitError Nat :=
  if m.len = 0 then .ok inn.memory_cost
  else if m.offset + m.len ≥ U256MOD then .error .OutOfGas
  else if m.offset + m.len > U64 - 1 then .error .OutOfGas
  else
    let e := m.offset + m.len
    let new := if e % 32 = 0 then e / 32 else e / 32 + 1
    .ok (max inn.memory_cost new)

/-- `Inner::extra_check`. -/
def extra_check (cfg : Config) (cost : GasCost) (after_gas : Nat) : Except ExitError Unit :=
  match cost with
  | .Call _ gas _ => call_extra_check cfg gas after_gas
  | .CallCode _ gas _ => call_extra_check cfg gas after_gas
  | .DelegateCall gas _ => call_extra_check cfg gas after_gas
  | .StaticCall gas _ => call_extra_check cfg gas after_gas
  | _ => .ok ()

/-- `Inner::gas_cost` (reads nothing from `self`). -/
def gas_cost (cfg : Config) (cost : GasCost) (gas : Nat) : Except ExitError Nat :=
  match cost with
  | .Call value _ target_exists => .ok (call_cost cfg value true true (!target_exists))
  | .CallCode value _ target_exists => .ok (call_cost cfg value true false (!target_exists))
  | .DelegateCall _ target_exists => .ok (call_cost cfg 0 false false (!target_exists))
  | .StaticCall _ target_exists => .ok (call_cost cfg 0 false true (!target_exists))
  | .Suicide value target_exists _ => .ok (suicide_cost cfg value target_exists)
  | .SStore original current new =>
    if cfg.estimate then .ok cfg.gas_sstore_set else sstore_cost cfg original current new gas
  | .Sha3 len => sha3_cost len
  | .Log n len => log_cost n len
  | .ExtCodeCopy len => extcodecopy_cost cfg len
  | .VeryLowCopy len => verylowcopy_cost len
  | .Exp power => exp_cost cfg power
  | .Create => .ok G_CREATE
  | .Create2 len => create2_cost len
  | .SLoad => .ok cfg.gas_sload
  | .Zero => .ok G_ZERO
  | .Base => .ok G_BASE
  | .VeryLow => .ok G_VERYLOW
  | .Low => .ok G_LOW
  | .Invalid => .error .OutOfGas
  | .ExtCodeSize => .ok cfg.gas_ext_code
  | .Balance => .ok cfg.gas_balance
  | .BlockHash => .ok G_BLOCKHASH
  | .ExtCodeHash => .ok cfg.gas_ext_code_hash

/-- `Inner::gas_refund`. -/
def gas_refund (cfg : Config) (cost : GasCost) : Int :=
  if cfg.estimate then 0
  else match cost with
  | .SStore original current new => sstore_refund cfg original current new
  | .Suicide _ _ already_removed => suicide_refund already_removed
  | _ => 0

/-- `Gasometer::record_dynamic_cost`.  The `try_or_fail!` macro poisons
the inner state on every error it propagates; an already poisoned inner
propagates its stored error via `inner_mut()?` without state change. -/
def Gasometer.record_dynamic_cost (cfg : Config) (g : Gasometer) (cost : GasCost)
    (memory : Option MemoryCost) : Except ExitError Unit × Gasometer :=
  let gas := g.gas
  match g.inner with
  | none => (.error .OutOfGas, g)
  | some inn =>
    let mcRes := match memory with
      | some m => inn.memory_cost_fn m
      | none => .ok inn.memory_cost
    match mcRes with
    | .error e => (.error e, { g with inner := none })
    | .ok memory_cost =>
      match memory_gas memory_cost with
      | .error e => (.error e, { g with inner := none })
      | .ok memory_gas_v =>
        match gas_cost cfg cost gas with
        | .error e => (.error e, { g with inner := none })
        | .ok gas_cost_v =>
          let gas_refund_v := gas_refund cfg cost
          let all_gas_cost := (memory_gas_v + inn.used_gas + gas_cost_v) % U64
          if g.gas_limit < all_gas_cost then (.error .OutOfGas, { g with inner := none })
          else
            let after_gas := g.gas_limit - all_gas_cost
            match extra_check cfg cost after_gas with
            | .error e => (.error e, { g with inner := none })
            | .ok _ =>
              (.ok (), { g with inner := some {
                memory_cost := memory_cost,
                used_gas := (inn.used_gas + gas_cost_v) % U64,
                refunded_gas := i64wrap (inn.refunded_gas + gas_refund_v) } })

/-- `Gasometer::record_transaction`. -/
def Gasometer.record_transaction (cfg : Config) (g : Gasometer) (cost : TransactionCost) :
    Except ExitError Unit × Gasometer :=
  let gcost := match cost with
    | .Call zero_data_len non_zero_data_len =>
      (cfg.gas_transaction_call + zero_data_len * cfg.gas_transaction_zero_data +
        non_zero_data_len * cfg.gas_transaction_non_zero_data) % U64
    | .Create zero_data_len non_zero_data_len =>
      (cfg.gas_transaction_create + zero_data_len * cfg.gas_transaction_zero_data +
        non_zero_data_len * cfg.gas_transaction_non_zero_data) % U64
  if g.gas < gcost then (.error .OutOfGas, { g with inner := none })
  else
    match g.inner with
    | none => (.error .OutOfGas, g)
    | some inn =>
      (.ok (), { g with inner := some { inn with used_gas := (inn.used_gas + gcost) % U64 } })

/-- One charging operation of the gasometer interface. -/
inductive GasOp where
  | cost (c : Nat)
  | refund (r : Int)
  | deposit (l : Nat)
  | stipend (s : Nat)
  | transaction (t : TransactionCost)
  | dynamic (c : GasCost) (m : Option MemoryCost)
deriving DecidableEq, Repr

/-- Apply one charging operation. -/
def Gasometer.applyRecord (cfg : Config) (g : Gasometer) : GasOp → Except ExitError Unit × Gasometer
  | .cost c => g.record_cost c
  | .refund r => g.record_refund r
  | .deposit l => g.record_deposit l
  | .stipend s => g.record_stipend s
  | .transaction t => g.record_transaction cfg t
  | .dynamic c m => g.record_dynamic_cost cfg c m

/-! ## Stack executor (src/executor/stack.rs)

Addresses (`H160`) are modelled as `Nat`; balances and nonces (`U256`)
as `Nat` (`U256` addition panics on overflow in the uint crate, and the
executor only ever moves existing balance, so plain `Nat` addition is
exact).  `BTreeMap<H160, StackAccount>` is an association list with
unique keys maintained by `insertAcc`; `BTreeSet<H160>` is a
duplicate-free list.  The executor borrows a read-only `Backend`; the
embedded operations take it as an explicit argument. -/

/-- `Basic` account info (src/backend/mod.rs). -/
structure Basic where
  balance : Nat
  nonce : Nat
deriving DecidableEq, Repr

/-- A `Log` record (src/backend/mod.rs). -/
structure Log where
  address : Nat
  topics : List Nat
  data : List Nat
deriving DecidableEq, Repr

/-- `StackAccount`, the overlay entry of the executor. -/
structure StackAccount where
  basic : Basic
  code : Option (List Nat)
  valids : Option (List Nat)
  storage : List (Nat × Nat)
  reset_storage : Bool
deriving DecidableEq, Repr

instance : Inhabited StackAccount := ⟨⟨⟨0, 0⟩, none, none, [], false⟩⟩

/-- The read-only backend interface, restricted to the one method the
embedded executor operations consult (`basic`). -/
structure Backend where
  basic : Nat → Basic

/-- Insert or replace a key in an association list. -/
def insertAcc (st : List (Nat × StackAccount)) (a : Nat) (acc : StackAccount) :
    List (Nat × StackAccount) :=
  match st with
  | [] => [(a, acc)]
  | (k, v) :: t => if k = a then (a, acc) :: t else (k, v) :: insertAcc t a acc

/-- Lookup in the overlay state. -/
def lookupAcc (st : List (Nat × StackAccount)) (a : Nat) : Option StackAccount :=
  match st with
  | [] => none
  | (k, v) :: t => if k = a then some v else lookupAcc t a

/-- `StackExecutor` (the precompile function pointer and the backend
borrow are not part of the mutable state). -/
structure Executor where
  gasometer : Gasometer
  state : List (Nat × StackAccount)
  deleted : List Nat
  logs : List Log
  is_static : Bool
  depth : Option Nat
deriving DecidableEq, Repr

/-- `StackExecutor::substate`: deep-clone `state`, `deleted` and `logs`,
fresh gasometer, bumped depth. -/
def Executor.substate (e : Executor) (gas_limit : Nat) (is_static : Bool) : Executor where
  gasometer := Gasometer.new gas_limit
  state := e.state
  deleted := e.deleted
  logs := e.logs
  is_static := is_static || e.is_static
  depth := match e.depth with
    | none => some 0
    | some n => some (n + 1)

/-- `StackExecutor::merge_succeed`. -/
def Executor.merge_succeed (e sub : Executor) : Except ExitError Unit × Executor :=
  let e1 : Executor :=
    { gasometer := e.gasometer, state := sub.state, deleted := e.deleted ++ sub.deleted,
      logs := e.logs ++ sub.logs, is_static := e.is_static, depth := e.depth }
  match e1.gasometer.record_stipend sub.gasometer.gas with
  | (.error er, gm) => (.error er, { e1 with gasometer := gm })
  | (.ok _, gm) =>
    let e2 := { e1 with gasometer := gm }
    match e2.gasometer.record_refund sub.gasometer.refunded_gas with
    | (.error er, gm2) => (.error er, { e2 with gasometer := gm2 })
    | (.ok _, gm2) => (.ok (), { e2 with gasometer := gm2 })

/-- `StackExecutor::merge_revert`: append the substate logs, refund the
substate remaining gas as a stipend; `state` and `deleted` untouched. -/
def Executor.merge_revert (e sub : Executor) : Except ExitError Unit × Executor :=
  let e1 := { e with logs := e.logs ++ sub.logs }
  match e1.gasometer.record_stipend sub.gasometer.gas with
  | (.error er, gm) => (.error er, { e1 with gasometer := gm })
  | (.ok _, gm) => (.ok (), { e1 with gasometer := gm })

/-- `StackExecutor::used_gas`: asserts the accumulated refund is
non-negative (`none` models the assertion failure), then subtracts the
capped refund. -/
def Executor.used_gas (e : Executor) : Option Nat :=
  let rg := e.gasometer.refunded_gas
  if rg < 0 then none
  else
    let tug := e.gasometer.total_used_gas
    some (tug - min (tug / 2) rg.toNat)

/-- `StackExecutor::balance` (overlay first, backend otherwise). -/
def Executor.balance (B : Backend) (e : Executor) (address : Nat) : Nat :=
  match lookupAcc e.state address with
  | some acc => acc.basic.balance
  | none => (B.basic address).balance

/-- The state effect of `StackExecutor::account_mut`: materialise the
account in the overlay from the backend if absent. -/
def Executor.ensureAccount (B : Backend) (e : Executor) (address : Nat) : Executor :=
  match lookupAcc e.state address with
  | some _ => e
  | none => { e with state := insertAcc e.state address ⟨B.basic address, none, none, [], false⟩ }

/-- `StackExecutor::withdraw`.  The `account_mut` materialisation
persists even on the `OutOfFund` path, as in the source. -/
def Executor.withdraw (B : Backend) (e : Executor) (address : Nat) (balance : Nat) :
    Except ExitError Unit × Executor :=
  let e1 := e.ensureAccount B address
  let acc := (lookupAcc e1.state address).getD default
  if acc.basic.balance < balance then (.error .OutOfFund, e1)
  else
    let acc2 := { acc with basic := { acc.basic with balance := acc.basic.balance - balance } }
    (.ok (), { e1 with state := insertAcc e1.state address acc2 })

/-- `StackExecutor::deposit`. -/
def Executor.deposit (B : Backend) (e : Executor) (address : Nat) (balance : Nat) : Executor :=
  let e1 := e.ensureAccount B address
  let acc := (lookupAcc e1.state address).getD default
  let acc2 := { acc with basic := { acc.basic with balance := acc.basic.balance + balance } }
  { e1 with state := insertAcc e1.state address acc2 }

/-- `StackExecutor::transfer`. -/
def Executor.transfer (B : Backend) (e : Executor) (source target value : Nat) :
    Except ExitError Unit × Executor :=
  match e.withdraw B source value with
  | (.error er, e1) => (.error er, e1)
  | (.ok _, e1) => (.ok (), e1.deposit B target value)

/-- `StackExecutor::mark_delete`: transfer the whole balance of
`address` to `target`, zero the balance of `address`, record the
deletion. -/
def Executor.mark_delete (B : Backend) (e : Executor) (address target : Nat) :
    Except ExitError Unit × Executor :=
  let balance := e.balance B address
  match e.transfer B address target balance with
  | (.error er, e1) => (.error er, e1)
  | (.ok _, e1) =>
    let e2 := e1.ensureAccount B address
    let acc := (lookupAcc e2.state address).getD default
    let acc2 := { acc with basic := { acc.basic with balance := 0 } }
    let e3 := { e2 with state := insertAcc e2.state address acc2 }
    let newDeleted := if address ∈ e3.deleted then e3.deleted else e3.deleted ++ [address]
    (.ok (), { e3 with deleted := newDeleted })

/-! ## PUSH evaluation (core/src/eval/misc.rs) -/

/-- `U256::from(&[u8])` for a slice of at most 32 bytes: the slice
interpreted as a big-endian integer. -/
def u256_from_be (bytes : List Nat) : Nat :=
  bytes.foldl (fun acc b => acc * 256 + b) 0

/-- The control outcome of one opcode evaluation (the variants `push` uses). -/
inductive Control where
  | continue1 (advance : Nat)
  | exit (e : ExitError)
deriving DecidableEq, Repr

/-- `eval::misc::push`: slice the `n` bytes after the opcode, clamped to
the code end, convert with `U256::from`, push, advance by `1 + n`. -/
def pushEval (code : List Nat) (stack : Stack) (n position : Nat) : Control × Stack :=
  let e := min (position + 1 + n) code.length
  let val := u256_from_be ((code.drop (position + 1)).take (e - (position + 1)))
  match stack.push_u256 val with
  | (.ok _, s2) => (.continue1 (1 + n), s2)
  | (.error er, s2) => (.exit er, s2)

/-! ## Lemmas: jump-destination validity scan -/

theorem skipOf_pos (op : Nat) : 1 ≤ skipOf op := by
  unfold skipOf
  split
  · omega
  · split <;> omega

theorem instPositions_eq_nil (code : List Nat) (s : Nat) (h : ¬ s < code.length) :
    instPositions code s = [] := by
  rw [instPositions]; simp [h]

theorem instPositions_eq_cons (code : List Nat) (s : Nat) (h : s < code.length) :
    instPositions code s = s :: instPositions code (s + skipOf (code.getD s 0)) := by
  rw [instPositions]; simp [h]

theorem validsGo_eq_base (code v : List Nat) (i : Nat) (h : ¬ i < code.length) :
    validsGo code v i = v := by
  rw [validsGo]; simp [h]

theorem validsGo_eq_step (code v : List Nat) (i : Nat) (h : i < code.length) :
    validsGo code v i
      = validsGo code (if code.getD i 0 = 0x5b then v.set i 1 else v)
          (i + skipOf (code.getD i 0)) := by
  rw [validsGo]; simp [h]

theorem getD_set_self (l : List Nat) (i a : Nat) (h : i < l.length) :
    (l.set i a).getD i 0 = a := by
  rw [List.getD_eq_getElem _ _ (by simpa using h)]
  simp [List.getElem_set, h]

theorem getD_set_ne (l : List Nat) (i j a : Nat) (h : i ≠ j) :
    (l.set i a).getD j 0 = l.getD j 0 := by
  rcases Nat.lt_or_ge j l.length with h2 | h2
  · rw [List.getD_eq_getElem _ _ (by simpa using h2), List.getD_eq_getElem _ _ h2]
    simp [List.getElem_set, h]
  · rw [List.getD_eq_default _ _ (by simpa using h2), List.getD_eq_default _ _ h2]

theorem getD_replicate0 (n i : Nat) : (List.replicate n (0 : Nat)).getD i 0 = 0 := by
  rcases Nat.lt_or_ge i n with h | h
  · rw [List.getD_eq_getElem _ _ (by simpa using h)]; simp
  · exact List.getD_eq_default _ _ (by simpa using h)

theorem isPushByte_ne_jumpdest (op : Nat) (h : isPushByte op = true) : op ≠ 0x5b := by
  unfold isPushByte at h
  simp only [Bool.and_eq_true, decide_eq_true_eq] at h
  omega

theorem skipOf_push (op : Nat) (h : isPushByte op = true) :
    skipOf op = (op - 0x5f) + 1 := by
  unfold skipOf
  rw [if_neg (isPushByte_ne_jumpdest op h), if_pos h]

theorem skipOf_nonpush (op : Nat) (h : isPushByte op = false) : skipOf op = 1 := by
  unfold skipOf
  split
  · rfl
  · rw [h]; simp

theorem instPositions_lb_aux (code : List Nat) :
    ∀ n s, code.length - s ≤ n → ∀ j ∈ instPositions code s, s ≤ j := by
  intro n
  induction n with
  | zero =>
    intro s hn j hj
    rw [instPositions_eq_nil code s (by omega)] at hj
    simp at hj
  | succ n ih =>
    intro s hn j hj
    by_cases hs : s < code.length
    · rw [instPositions_eq_cons code s hs] at hj
      rcases List.mem_cons.mp hj with h | h
      · omega
      · have := ih (s + skipOf (code.getD s 0))
          (by have := skipOf_pos (code.getD s 0); omega) j h
        have := skipOf_pos (code.getD s 0)
        omega
    · rw [instPositions_eq_nil code s hs] at hj
      simp at hj

theorem instPositions_lb (code : List Nat) (s : Nat) :
    ∀ j ∈ instPositions code s, s ≤ j :=
  instPositions_lb_aux code (code.length - s) s (Nat.le_refl _)

theorem coveredBy_cons (code : List Nat) (s i : Nat) (h : s < code.length) :
    coveredBy code s i ↔
      ((s < i ∧ isPushByte (code.getD s 0) = true ∧ i ≤ s + (code.getD s 0 - 0x5f)) ∨
        coveredBy code (s + skipOf (code.getD s 0)) i) := by
  unfold coveredBy
  rw [instPositions_eq_cons code s h]
  constructor
  · rintro ⟨j, hj, h1, h2, h3⟩
    rcases List.mem_cons.mp hj with he | hm
    · subst he
      exact Or.inl ⟨h1, h2, h3⟩
    · exact Or.inr ⟨j, hm, h1, h2, h3⟩
  · rintro (⟨h1, h2, h3⟩ | ⟨j, hm, h1, h2, h3⟩)
    · exact ⟨s, List.mem_cons_self _ _, h1, h2, h3⟩
    · exact ⟨j, List.mem_cons_of_mem _ hm, h1, h2, h3⟩

theorem scan_char_aux (code : List Nat) :
    ∀ n s i, code.length - s ≤ n → s ≤ i →
      ((i ∈ instPositions code s ∧ code.getD i 0 = 0x5b) ↔
        (i < code.length ∧ code.getD i 0 = 0x5b ∧ ¬ coveredBy code s i)) := by
  intro n
  induction n with
  | zero =>
    intro s i hn hsi
    rw [instPositions_eq_nil code s (by omega)]
    constructor
    · rintro ⟨hmem, _⟩; simp at hmem
    · rintro ⟨hlt, _, _⟩; omega
  | succ n ih =>
    intro s i hn hsi
    by_cases hs : s < code.length
    · have hcons := instPositions_eq_cons code s hs
      have hcov := coveredBy_cons code s i hs
      by_cases hi : i = s
      · subst hi
        constructor
        · rintro ⟨_, hJ⟩
          refine ⟨hs, hJ, ?_⟩
          rw [hcov]
          rintro (⟨h1, _, _⟩ | hcb)
          · omega
          · obtain ⟨j, hj, hji, _, _⟩ := hcb
            have := instPositions_lb code (i + skipOf (code.getD i 0)) j hj
            have := skipOf_pos (code.getD i 0)
            omega
        · rintro ⟨hlt, hJ, _⟩
          exact ⟨by rw [hcons]; exact List.mem_cons_self _ _, hJ⟩
      · have hsi2 : s < i := Nat.lt_of_le_of_ne hsi (Ne.symm hi)
        by_cases hpay : isPushByte (code.getD s 0) = true ∧ i ≤ s + (code.getD s 0 - 0x5f)
        · constructor
          · rintro ⟨hmem, hJ⟩
            rw [hcons] at hmem
            rcases List.mem_cons.mp hmem with he | hm
            · exact absurd he hi
            · have hlb := instPositions_lb code (s + skipOf (code.getD s 0)) i hm
              have hskip := skipOf_push (code.getD s 0) hpay.1
              omega
          · rintro ⟨hlt, hJ, hncov⟩
            exact absurd (hcov.mpr (Or.inl ⟨hsi2, hpay.1, hpay.2⟩)) hncov
        · have hstep : s + skipOf (code.getD s 0) ≤ i := by
            by_cases hpu : isPushByte (code.getD s 0) = true
            · have hskip := skipOf_push (code.getD s 0) hpu
              have : ¬ i ≤ s + (code.getD s 0 - 0x5f) := fun hc => hpay ⟨hpu, hc⟩
              omega
            · have hskip := skipOf_nonpush (code.getD s 0) (by simpa using hpu)
              omega
          have ihs := ih (s + skipOf (code.getD s 0)) i
            (by have := skipOf_pos (code.getD s 0); omega) hstep
          constructor
          · rintro ⟨hmem, hJ⟩
            rw [hcons] at hmem
            rcases List.mem_cons.mp hmem with he | hm
            · exact absurd he hi
            · obtain ⟨hlt, _, hncov⟩ := ihs.mp ⟨hm, hJ⟩
              refine ⟨hlt, hJ, ?_⟩
              rw [hcov]
              rintro (⟨_, hp1, hp2⟩ | hc)
              · exact hpay ⟨hp1, hp2⟩
              · exact hncov hc
          · rintro ⟨hlt, hJ, hncov⟩
            have hncov2 : ¬ coveredBy code (s + skipOf (code.getD s 0)) i :=
              fun hc => hncov (hcov.mpr (Or.inr hc))
            obtain ⟨hmem, _⟩ := ihs.mpr ⟨hlt, hJ, hncov2⟩
            exact ⟨by rw [hcons]; exact List.mem_cons_of_mem _ hmem, hJ⟩
    · rw [instPositions_eq_nil code s hs]
      constructor
      · rintro ⟨hmem, _⟩; simp at hmem
      · rintro ⟨hlt, _, hncov⟩
        omega

theorem scan_char (code : List Nat) (i : Nat) :
    (i ∈ instPositions code 0 ∧ code.getD i 0 = 0x5b) ↔
      (i < code.length ∧ code.getD i 0 = 0x5b ∧ ¬ coveredBy code 0 i) :=
  scan_char_aux code code.length 0 i (by omega) (Nat.zero_le i)

theorem validsGo_length_aux (code : List Nat) :
    ∀ n v i, code.length - i ≤ n → (validsGo code v i).length = v.length := by
  intro n
  induction n with
  | zero =>
    intro v i hn
    rw [validsGo_eq_base code v i (by omega)]
  | succ n ih =>
    intro v i hn
    by_cases hi : i < code.length
    · rw [validsGo_eq_step code v i hi]
      rw [ih _ _ (by have := skipOf_pos (code.getD i 0); omega)]
      split <;> simp
    · rw [validsGo_eq_base code v i hi]

theorem validsGo_getD_aux (code : List Nat) :
    ∀ n v i p, code.length - i ≤ n → v.length = code.length →
      (validsGo code v i).getD p 0
        = if p ∈ instPositions code i ∧ code.getD p 0 = 0x5b then 1 else v.getD p 0 := by
  intro n
  induction n with
  | zero =>
    intro v i p hn hv
    rw [validsGo_eq_base code v i (by omega), instPositions_eq_nil code i (by omega)]
    simp
  | succ n ih =>
    intro v i p hn hv
    by_cases hi : i < code.length
    · rw [validsGo_eq_step code v i hi, instPositions_eq_cons code i hi]
      have hv2 : (if code.getD i 0 = 0x5b then v.set i 1 else v).length = code.length := by
        split <;> simp [hv]
      rw [ih _ _ p (by have := skipOf_pos (code.getD i 0); omega) hv2]
      by_cases hmem : p ∈ instPositions code (i + skipOf (code.getD i 0)) ∧ code.getD p 0 = 0x5b
      · rw [if_pos hmem, if_pos ⟨List.mem_cons_of_mem _ hmem.1, hmem.2⟩]
      · rw [if_neg hmem]
        by_cases hJi : code.getD i 0 = 0x5b
        · rw [if_pos hJi]
          by_cases hpi : p = i
          · subst hpi
            have hcond : p ∈ p :: instPositions code (p + skipOf (code.getD p 0)) ∧
                code.getD p 0 = 0x5b := ⟨List.mem_cons_self _ _, hJi⟩
            rw [if_pos hcond]
            exact getD_set_self v p 1 (by omega)
          · rw [getD_set_ne v i p 1 (fun he => hpi he.symm)]
            rw [if_neg (show ¬ (p ∈ i :: instPositions code (i + skipOf (code.getD i 0)) ∧
                code.getD p 0 = 0x5b) by
              rintro ⟨hm, hJ⟩
              rcases List.mem_cons.mp hm with he | hm2
              · exact hpi he
              · exact hmem ⟨hm2, hJ⟩)]
        · rw [if_neg hJi]
          rw [if_neg (show ¬ (p ∈ i :: instPositions code (i + skipOf (code.getD i 0)) ∧
              code.getD p 0 = 0x5b) by
            rintro ⟨hm, hJ⟩
            rcases List.mem_cons.mp hm with he | hm2
            · subst he; exact hJi hJ
            · exact hmem ⟨hm2, hJ⟩)]
    · rw [validsGo_eq_base code v i hi, instPositions_eq_nil code i hi]
      simp

theorem valids_new_getD (code : List Nat) (p : Nat) :
    (Valids.new code).data.getD p 0
      = if p ∈ instPositions code 0 ∧ code.getD p 0 = 0x5b then 1 else 0 := by
  unfold Valids.new
  rw [validsGo_getD_aux code code.length (List.replicate code.length 0) 0 p (by omega)
    (by simp)]
  split
  · rfl
  · exact getD_replicate0 _ _

theorem valids_new_length (code : List Nat) :
    (Valids.new code).data.length = code.length := by
  unfold Valids.new
  rw [validsGo_length_aux code code.length _ 0 (by omega)]
  simp

/-! ## Lemmas: stack bounds -/

theorem Stack.applyOp_limit (s : Stack) (op : StackOp) : (s.applyOp op).limit = s.limit := by
  cases op <;>
    simp only [Stack.applyOp, Stack.push, Stack.push_u256, Stack.pop, Stack.pop_u256,
      Stack.set, Stack.dup, Stack.swap] <;>
    (repeat' split) <;> rfl

theorem Stack.applyOp_length (s : Stack) (op : StackOp) (h : s.data.length ≤ s.limit) :
    (s.applyOp op).data.length ≤ s.limit := by
  cases op <;>
    simp only [Stack.applyOp, Stack.push, Stack.push_u256, Stack.pop, Stack.pop_u256,
      Stack.set, Stack.dup, Stack.swap] <;>
    (repeat' split) <;>
    simp_all [List.length_append, List.length_set, List.length_dropLast] <;> omega

theorem Stack.applyOps_bound (ops : List StackOp) (s : Stack) (h : s.data.length ≤ s.limit) :
    (s.applyOps ops).data.length ≤ (s.applyOps ops).limit ∧ (s.applyOps ops).limit = s.limit := by
  induction ops generalizing s with
  | nil => exact ⟨h, rfl⟩
  | cons op rest ih =>
    have h1 := Stack.applyOp_length s op h
    have h2 := Stack.applyOp_limit s op
    have := ih (s.applyOp op) (h2 ▸ h1)
    simpa [Stack.applyOps] using ⟨this.1, this.2.trans h2⟩

/-! ## Lemmas: memory -/

theorem except_toOption_eq_some {e : Except ExitError Memory} {a : Memory} :
    e.toOption = some a ↔ e = .ok a := by
  cases e <;> simp [Except.toOption]

theorem exceptF_toOption_eq_some {e : Except ExitFatal Memory} {a : Memory} :
    e.toOption = some a ↔ e = .ok a := by
  cases e <;> simp [Except.toOption]

theorem Memory.resize_end_inv (m : Memory) (e : Nat) (m' : Memory)
    (h : m.resize_end e = .ok m') (hm1 : m.effective_len % 32 = 0) :
    m'.effective_len % 32 = 0 ∧ m'.data = m.data ∧ m'.limit = m.limit := by
  unfold Memory.resize_end at h
  split at h
  · simp only [Except.ok.injEq] at h; subst h
    refine ⟨?_, rfl, rfl⟩
    rcases Nat.le_total m.effective_len e with hle | hle
    · simp only [Nat.max_eq_right hle]; omega
    · simp only [Nat.max_eq_left hle]; omega
  · split at h
    · simp only [Except.ok.injEq] at h; subst h
      refine ⟨?_, rfl, rfl⟩
      rcases Nat.le_total m.effective_len (e + 32 - e % 32) with hle | hle
      · simp only [Nat.max_eq_right hle]; omega
      · simp only [Nat.max_eq_left hle]; omega
    · exact absurd h (by simp)

theorem Memory.resize_offset_inv (m : Memory) (o l : Nat) (m' : Memory)
    (h : m.resize_offset o l = .ok m') (hm1 : m.effective_len % 32 = 0) :
    m'.effective_len % 32 = 0 ∧ m'.data = m.data ∧ m'.limit = m.limit := by
  unfold Memory.resize_offset at h
  split at h
  · simp only [Except.ok.injEq] at h; subst h; exact ⟨hm1, rfl, rfl⟩
  · split at h
    · exact Memory.resize_end_inv m (o + l) m' h hm1
    · exact absurd h (by simp)

theorem Memory.set_ok_meta (m : Memory) (o : Nat) (v : List Nat) (t : Option Nat) (m' : Memory)
    (h : m.set o v t = .ok m') :
    m'.effective_len = m.effective_len ∧ m'.limit = m.limit ∧
    m'.data.length = max m.data.length (o + t.getD v.length) ∧
    o + t.getD v.length ≤ m.limit := by
  simp only [Memory.set] at h
  split at h
  · exact absurd h (by simp)
  · split at h
    · exact absurd h (by simp)
    · simp only [Except.ok.injEq] at h
      subst h
      refine ⟨rfl, rfl, ?_, by omega⟩
      simp only [List.length_append, List.length_take, List.length_drop, List.length_replicate]
      split
      · simp only [List.length_append, List.length_replicate]; omega
      · omega

theorem Memory.applyOp_inv (m : Memory) (op : MemOp) (m' : Memory)
    (h : m.applyOp op = some m')
    (hinv : m.effective_len % 32 = 0 ∧ m.data.length ≤ m.limit) :
    (m'.effective_len % 32 = 0 ∧ m'.data.length ≤ m'.limit) ∧ m'.limit = m.limit := by
  obtain ⟨hm1, hm2⟩ := hinv
  cases op with
  | resize_end e =>
    rw [Memory.applyOp, except_toOption_eq_some] at h
    obtain ⟨h1, h2, h3⟩ := Memory.resize_end_inv m e m' h hm1
    exact ⟨⟨h1, by rw [h2, h3]; exact hm2⟩, h3⟩
  | resize_offset o l =>
    rw [Memory.applyOp, except_toOption_eq_some] at h
    obtain ⟨h1, h2, h3⟩ := Memory.resize_offset_inv m o l m' h hm1
    exact ⟨⟨h1, by rw [h2, h3]; exact hm2⟩, h3⟩
  | set o v t =>
    rw [Memory.applyOp, exceptF_toOption_eq_some] at h
    obtain ⟨h1, h2, h3, h4⟩ := Memory.set_ok_meta m o v t m' h
    exact ⟨⟨by rw [h1]; exact hm1, by rw [h2, h3]; omega⟩, h2⟩
  | copy_large mo dofs l d =>
    rw [Memory.applyOp, exceptF_toOption_eq_some] at h
    unfold Memory.copy_large at h
    obtain ⟨h1, h2, h3, h4⟩ := Memory.set_ok_meta m mo _ (some l) m' h
    exact ⟨⟨by rw [h1]; exact hm1,
      by rw [h2, h3]; simp only [Option.getD_some] at h4 ⊢; omega⟩, h2⟩

theorem Memory.applyOps_invariant (ops : List MemOp) (m : Memory)
    (hinv : m.effective_len % 32 = 0 ∧ m.data.length ≤ m.limit) :
    ∀ m', m.applyOps ops = some m' →
      m'.effective_len % 32 = 0 ∧ m'.data.length ≤ m'.limit := by
  induction ops generalizing m with
  | nil =>
    intro m' h
    simp [Memory.applyOps] at h
    subst h
    exact hinv
  | cons op rest ih =>
    intro m' h
    simp only [Memory.applyOps, List.foldlM_cons] at h
    cases hstep : m.applyOp op with
    | none => rw [hstep] at h; simp at h
    | some m1 =>
      rw [hstep] at h
      obtain ⟨hinv1, _⟩ := Memory.applyOp_inv m op m1 hstep hinv
      exact ih m1 hinv1 m' (by simpa using h)

theorem Memory.set_some_decomp (m : Memory) (o : Nat) (v : List Nat) (k : Nat) (m' : Memory)
    (h : m.set o v (some k) = .ok m') :
    o + k < U64 ∧ o + k ≤ m.limit ∧ m'.effective_len = m.effective_len ∧ m'.limit = m.limit ∧
    m'.data =
      (if m.data.length < o + k then m.data ++ List.replicate (o + k - m.data.length) 0
        else m.data).take o ++
      (v.take (min v.length k) ++ List.replicate (k - min v.length k) 0) ++
      (if m.data.length < o + k then m.data ++ List.replicate (o + k - m.data.length) 0
        else m.data).drop (o + k) := by
  unfold Memory.set at h
  simp only [Option.getD_some] at h
  split at h
  · exact absurd h (by simp)
  · split at h
    · exact absurd h (by simp)
    · simp only [Except.ok.injEq] at h
      subst h
      refine ⟨by omega, by omega, rfl, rfl, rfl⟩

theorem Memory.set_some_length (m : Memory) (o : Nat) (v : List Nat) (k : Nat) (m' : Memory)
    (h : m.set o v (some k) = .ok m') :
    m'.data.length = max m.data.length (o + k) := by
  obtain ⟨h1, h2, h3, h4, h5⟩ := Memory.set_some_decomp m o v k m' h
  rw [h5]
  simp only [List.length_append, List.length_take, List.length_drop, List.length_replicate]
  split <;> simp [List.length_append, List.length_replicate] <;> omega

theorem Memory.get_after_set (m : Memory) (o : Nat) (v : List Nat) (k : Nat) (m' : Memory)
    (hv : v.length ≤ k) (h : m.set o v (some k) = .ok m') :
    m'.get o k = v ++ List.replicate (k - v.length) 0 := by
  obtain ⟨h1, h2, h3, h4, h5⟩ := Memory.set_some_decomp m o v k m' h
  have hlen := Memory.set_some_length m o v k m' h
  have hmin : min v.length k = v.length := Nat.min_eq_left hv
  by_cases hk : k = 0
  · subst hk
    have hv0 : v = [] := List.length_eq_zero.mp (Nat.le_zero.mp hv)
    subst hv0
    unfold Memory.get
    repeat' split
    · simp
    · simp
    · rename_i hge _
      have : min (o + 0) m'.data.length = o := by omega
      simp [this]
  · have hge : ¬ o ≥ m'.data.length := by omega
    have hob : ¬ o + k ≥ U64 := by omega
    unfold Memory.get
    simp only [if_neg hge, if_neg hob]
    have he : min (o + k) m'.data.length = o + k := by omega
    rw [he]
    have hk2 : o + k - o = k := by omega
    rw [hk2, h5]
    set P : List Nat := if m.data.length < o + k then
        m.data ++ List.replicate (o + k - m.data.length) 0 else m.data with hP
    have hPlen : o + k ≤ P.length := by
      rw [hP]; split
      · simp only [List.length_append, List.length_replicate]; omega
      · omega
    set F : List Nat := v.take (min v.length k) ++ List.replicate (k - min v.length k) 0 with hF
    have hAlen : (P.take o).length = o := by
      rw [List.length_take]; omega
    have hFlen : F.length = k := by
      rw [hF]; simp [hmin]; omega
    have hdrop : (P.take o ++ F ++ P.drop (o + k)).drop o = F ++ P.drop (o + k) := by
      rw [List.append_assoc]
      have := hAlen ▸ List.drop_left (P.take o) (F ++ P.drop (o + k))
      exact this
    rw [hdrop]
    have htake : (F ++ P.drop (o + k)).take k = F := by
      have := hFlen ▸ List.take_left F (P.drop (o + k))
      exact this
    rw [htake, hF, hmin, List.take_length]
    simp

theorem Memory.get_length (m : Memory) (o s : Nat) : (m.get o s).length = s := by
  unfold Memory.get
  repeat' split
  · simp
  · simp
  · simp only [List.length_append, List.length_take, List.length_drop, List.length_replicate]
    omega

theorem Memory.get_zero_beyond (m : Memory) (o s i : Nat) (hi : i < s)
    (hb : m.data.length ≤ o + i) : (m.get o s).getD i 0 = 0 := by
  unfold Memory.get
  repeat' split
  · exact getD_replicate0 _ _
  · exact getD_replicate0 _ _
  · rename_i h1 h2
    have hA : ((m.data.drop o).take (min (o + s) m.data.length - o)).length
        = min (o + s) m.data.length - o := by
      simp only [List.length_take, List.length_drop]; omega
    rw [List.getD_append_right _ _ _ _ (by rw [hA]; omega)]
    exact getD_replicate0 _ _

/-! ## Lemmas: gasometer -/

theorem i64AsU64_of_nonneg (rg : Int) (h0 : 0 ≤ rg) (h1 : rg < 2 ^ 63) :
    i64AsU64 rg = rg.toNat := by
  unfold i64AsU64
  rw [Int.emod_eq_of_lt h0 (by omega)]

theorem used_gas_formula (gl mc ug : Nat) (rg : Int) (mg : Nat)
    (hmg : memory_gas mc = .ok mg) (hrg0 : 0 ≤ rg) (hrg1 : rg < 2 ^ 63)
    (hov : ug + mg < U64) :
    Gasometer.used_gas ⟨gl, some ⟨mc, ug, rg⟩⟩
      = (ug + mg) - min ((ug + mg) / 2) rg.toNat := by
  unfold Gasometer.used_gas
  simp only [hmg, Except.toOption, Option.getD_some]
  rw [Nat.mod_eq_of_lt hov, i64AsU64_of_nonneg rg hrg0 hrg1]

theorem total_used_gas_formula (gl mc ug : Nat) (rg : Int) (mg : Nat)
    (hmg : memory_gas mc = .ok mg) (hov : ug + mg < U64) :
    Gasometer.total_used_gas ⟨gl, some ⟨mc, ug, rg⟩⟩ = ug + mg := by
  unfold Gasometer.total_used_gas
  simp only [hmg, Except.toOption, Option.getD_some]
  exact Nat.mod_eq_of_lt hov

/-! ## Lemmas: executor state overlay -/

theorem lookup_insertAcc_self (st : List (Nat × StackAccount)) (a : Nat) (acc : StackAccount) :
    lookupAcc (insertAcc st a acc) a = some acc := by
  induction st with
  | nil => simp [insertAcc, lookupAcc]
  | cons kv rest ih =>
    obtain ⟨k, v⟩ := kv
    by_cases hk : k = a
    · simp [insertAcc, hk, lookupAcc]
    · simp [insertAcc, hk, lookupAcc, ih]

theorem lookup_insertAcc_ne (st : List (Nat × StackAccount)) (a b : Nat) (acc : StackAccount)
    (h : b ≠ a) : lookupAcc (insertAcc st a acc) b = lookupAcc st b := by
  induction st with
  | nil => simp [insertAcc, lookupAcc, Ne.symm h]
  | cons kv rest ih =>
    obtain ⟨k, v⟩ := kv
    by_cases hk : k = a
    · subst hk
      simp [insertAcc, lookupAcc, h, Ne.symm h]
    · by_cases hkb : k = b
      · subst hkb
        simp [insertAcc, hk, lookupAcc]
      · simp [insertAcc, hk, lookupAcc, hkb, ih]

theorem balance_eq_getD (B : Backend) (e : Executor) (a : Nat) :
    e.balance B a
      = ((lookupAcc e.state a).getD ⟨B.basic a, none, none, [], false⟩).basic.balance := by
  unfold Executor.balance
  cases h : lookupAcc e.state a <;> simp [h]

theorem ensure_lookup_self (B : Backend) (e : Executor) (a : Nat) :
    lookupAcc (e.ensureAccount B a).state a
      = some ((lookupAcc e.state a).getD ⟨B.basic a, none, none, [], false⟩) := by
  unfold Executor.ensureAccount
  cases h : lookupAcc e.state a <;> simp [h, lookup_insertAcc_self]

theorem ensure_lookup_ne (B : Backend) (e : Executor) (a x : Nat) (hx : x ≠ a) :
    lookupAcc (e.ensureAccount B a).state x = lookupAcc e.state x := by
  unfold Executor.ensureAccount
  cases h : lookupAcc e.state a
  · simp [h, lookup_insertAcc_ne _ _ _ _ hx]
  · simp [h]

theorem ensure_deleted (B : Backend) (e : Executor) (a : Nat) :
    (e.ensureAccount B a).deleted = e.deleted := by
  unfold Executor.ensureAccount
  cases lookupAcc e.state a <;> rfl

theorem balance_congr (B : Backend) (e1 e2 : Executor) (x : Nat)
    (h : lookupAcc e1.state x = lookupAcc e2.state x) : e1.balance B x = e2.balance B x := by
  unfold Executor.balance
  rw [h]

theorem balance_of_map (B : Backend) (e : Executor) (x b : Nat)
    (h : (lookupAcc e.state x).map (fun acc => acc.basic.balance) = some b) :
    e.balance B x = b := by
  unfold Executor.balance
  cases hl : lookupAcc e.state x <;> rw [hl] at h <;> simp at h
  exact h

theorem withdraw_self_spec (B : Backend) (e : Executor) (a : Nat) :
    ∃ ew, e.withdraw B a (e.balance B a) = (.ok (), ew) ∧
      (lookupAcc ew.state a).map (fun acc => acc.basic.balance) = some 0 ∧
      (∀ x, x ≠ a → lookupAcc ew.state x = lookupAcc e.state x) ∧
      ew.deleted = e.deleted := by
  simp only [Executor.withdraw]
  rw [ensure_lookup_self]
  simp only [Option.getD_some]
  rw [if_neg (by rw [balance_eq_getD]; omega)]
  refine ⟨_, rfl, ?_, ?_, ?_⟩
  · simp only [lookup_insertAcc_self, Option.map_some]
    rw [balance_eq_getD]
    simp
  · intro x hx
    rw [lookup_insertAcc_ne _ _ _ _ hx, ensure_lookup_ne B e a x hx]
  · exact ensure_deleted B e a

theorem deposit_spec (B : Backend) (e : Executor) (t v : Nat) :
    (lookupAcc (e.deposit B t v).state t).map (fun acc => acc.basic.balance)
        = some (e.balance B t + v) ∧
      (∀ x, x ≠ t → lookupAcc (e.deposit B t v).state x = lookupAcc e.state x) ∧
      (e.deposit B t v).deleted = e.deleted := by
  simp only [Executor.deposit]
  rw [ensure_lookup_self]
  simp only [Option.getD_some]
  refine ⟨?_, ?_, ?_⟩
  · rw [lookup_insertAcc_self, balance_eq_getD]
    simp
  · intro x hx
    simp only [lookup_insertAcc_ne _ _ _ _ hx, ensure_lookup_ne B e t x hx]
  · exact ensure_deleted B e t

/-! ## The claims -/

/-- Claim C1: for every byte sequence and every index, the bitmap built by
Valids.new marks the index valid iff the index is in range, the byte there
is 0x5b (JUMPDEST), and the index is not inside the payload of a preceding
PUSHn instruction (a PUSHn opcode op in 0x60..=0x7f covers the next
op - 0x5f bytes); in particular every out-of-range index is invalid. -/
theorem claim1_valids_is_valid_iff (code : List Nat) (i : Nat) :
    ((Valids.new code).is_valid i = true) ↔
      (i < code.length ∧ code.getD i 0 = 0x5b ∧ ¬ coveredBy code 0 i) := by
  have hlen := valids_new_length code
  have hget := valids_new_getD code i
  unfold Valids.is_valid
  by_cases hlt : i < code.length
  · rw [if_neg (show ¬ i ≥ (Valids.new code).data.length by omega)]
    by_cases hcond : i ∈ instPositions code 0 ∧ code.getD i 0 = 0x5b
    · rw [hget, if_pos hcond]
      rw [if_neg (show ¬ (1 : Nat) = 0 by omega)]
      constructor
      · intro _
        exact (scan_char code i).mp hcond
      · intro _
        rfl
    · rw [hget, if_neg hcond]
      rw [if_pos rfl]
      constructor
      · intro h
        exact absurd h (by simp)
      · intro hrhs
        exact absurd ((scan_char code i).mpr hrhs) hcond
  · rw [if_pos (show i ≥ (Valids.new code).data.length by omega)]
    constructor
    · intro h
      exact absurd h (by simp)
    · rintro ⟨h, _⟩
      omega

/-- Claim C2 (code bug, evaluated at the failing input): a parent executor
holding one log spawns a substate that makes no state change, emits no log
and exits with Revert; after merge_revert the parent state and deleted set
do equal their pre-call values, but the parent logs are NOT the pre-call
logs: substate creation cloned the parent log vector and merge_revert
appends it back, so the log appears twice. -/
theorem claim2_merge_revert_duplicates_parent_logs :
    ((⟨Gasometer.new 0, [], [], [⟨1, [], []⟩], false, none⟩ : Executor).merge_revert
        ((⟨Gasometer.new 0, [], [], [⟨1, [], []⟩], false, none⟩ : Executor).substate 0 false)).2.state
      = (⟨Gasometer.new 0, [], [], [⟨1, [], []⟩], false, none⟩ : Executor).state ∧
    ((⟨Gasometer.new 0, [], [], [⟨1, [], []⟩], false, none⟩ : Executor).merge_revert
        ((⟨Gasometer.new 0, [], [], [⟨1, [], []⟩], false, none⟩ : Executor).substate 0 false)).2.deleted
      = (⟨Gasometer.new 0, [], [], [⟨1, [], []⟩], false, none⟩ : Executor).deleted ∧
    ((⟨Gasometer.new 0, [], [], [⟨1, [], []⟩], false, none⟩ : Executor).merge_revert
        ((⟨Gasometer.new 0, [], [], [⟨1, [], []⟩], false, none⟩ : Executor).substate 0 false)).2.logs
      = [⟨1, [], []⟩, ⟨1, [], []⟩] ∧
    ((⟨Gasometer.new 0, [], [], [⟨1, [], []⟩], false, none⟩ : Executor).merge_revert
        ((⟨Gasometer.new 0, [], [], [⟨1, [], []⟩], false, none⟩ : Executor).substate 0 false)).2.logs
      ≠ (⟨Gasometer.new 0, [], [], [⟨1, [], []⟩], false, none⟩ : Executor).logs := by
  decide

/-- Claim C3 (counterexample): with total used gas 10 and accumulated refund
-1, Gasometer.used_gas returns 5, not the claimed
total_used - min(total_used/2, max(0, refunded)) = 10: the i64-to-u64 cast
of the negative refund wraps instead of clamping to zero. -/
theorem claim3_cex_negative_refund :
    Gasometer.used_gas ⟨100, some ⟨0, 10, -1⟩⟩
      ≠ Gasometer.total_used_gas ⟨100, some ⟨0, 10, -1⟩⟩
        - min (Gasometer.total_used_gas ⟨100, some ⟨0, 10, -1⟩⟩ / 2)
            (Int.toNat (max 0 (Gasometer.refunded_gas ⟨100, some ⟨0, 10, -1⟩⟩))) := by
  decide

/-- Claim C3 (amended): for an unpoisoned gasometer whose accumulated
refund is non-negative, used_gas returns
total_used - min(total_used / 2, refunded), hence always at least
total_used / 2, and StackExecutor::used_gas agrees (it asserts the refund
is non-negative); a negative refund is instead cast to u64 with wrapping,
so it does not subtract nothing. -/
theorem claim3_used_gas_formula (gl mc ug : Nat) (rg : Int) (mg : Nat)
    (hmg : memory_gas mc = .ok mg) (hrg0 : 0 ≤ rg) (hrg1 : rg < 2 ^ 63)
    (hov : ug + mg < U64) :
    Gasometer.used_gas ⟨gl, some ⟨mc, ug, rg⟩⟩
        = (ug + mg) - min ((ug + mg) / 2) rg.toNat ∧
    (ug + mg) / 2 ≤ Gasometer.used_gas ⟨gl, some ⟨mc, ug, rg⟩⟩ ∧
    ∀ (st : List (Nat × StackAccount)) (dl : List Nat) (lgs : List Log) (b : Bool)
      (dp : Option Nat),
      Executor.used_gas ⟨⟨gl, some ⟨mc, ug, rg⟩⟩, st, dl, lgs, b, dp⟩
        = some ((ug + mg) - min ((ug + mg) / 2) rg.toNat) := by
  have hval := used_gas_formula gl mc ug rg mg hmg hrg0 hrg1 hov
  refine ⟨hval, ?_, ?_⟩
  · rw [hval]
    have := Nat.min_le_left ((ug + mg) / 2) rg.toNat
    omega
  · intro st dl lgs b dp
    have htug := total_used_gas_formula gl mc ug rg mg hmg hov
    simp only [Executor.used_gas, Gasometer.refunded_gas]
    rw [if_neg (show ¬ (rg < 0) by omega), htug]

/-- Witness for C3: concrete unpoisoned gasometer with refund 3. -/
theorem claim3_witness :
    Gasometer.used_gas ⟨100, some ⟨0, 10, 3⟩⟩
      = (10 + 0) - min ((10 + 0) / 2) ((3 : Int).toNat) :=
  (claim3_used_gas_formula 100 0 10 3 0 (by rfl) (by decide) (by decide) (by decide)).1

/-- Claim C4: the length of a stack created with limit 1024 never exceeds
1024 under any sequence of stack operations, and push (and push_u256) on a
stack whose length equals its limit returns StackOverflow and leaves the
stack unchanged. -/
theorem claim4_stack_bounded :
    (∀ ops : List StackOp, ((Stack.new 1024).applyOps ops).data.length ≤ 1024) ∧
    (∀ (s : Stack) (v : Nat), s.data.length = s.limit →
      s.push v = (.error .StackOverflow, s) ∧ s.push_u256 v = (.error .StackOverflow, s)) := by
  constructor
  · intro ops
    have h := Stack.applyOps_bound ops (Stack.new 1024) (by simp [Stack.new])
    have h2 : ((Stack.new 1024).applyOps ops).limit = 1024 := h.2
    have h1 := h.1
    omega
  · intro s v h
    constructor
    · unfold Stack.push
      rw [if_pos (by omega)]
    · unfold Stack.push_u256
      rw [if_pos (by omega)]

/-- Witness for C4: a push sequence stays bounded, and push on a concrete
full stack overflows without change. -/
theorem claim4_witness :
    ((Stack.new 1024).applyOps [.push 5, .pop]).data.length ≤ 1024 ∧
    (⟨[7, 8], 2⟩ : Stack).push 9 = (.error .StackOverflow, ⟨[7, 8], 2⟩) :=
  ⟨claim4_stack_bounded.1 [.push 5, .pop], (claim4_stack_bounded.2 ⟨[7, 8], 2⟩ 9 rfl).1⟩

/-- Claim C5 (counterexample): one successful set on a fresh memory yields
a memory whose buffer length 1 exceeds effective_len 0, refuting the
claimed invariant effective_len ≥ len(data). -/
theorem claim5_cex_effective_len :
    Memory.applyOps (Memory.new 64) [MemOp.set 0 [1] none] = some ⟨[1], 0, 64⟩ ∧
    ¬ ((⟨[1], 0, 64⟩ : Memory).data.length ≤ (⟨[1], 0, 64⟩ : Memory).effective_len) := by
  decide

/-- Claim C5 (amended): for every memory reachable from Memory.new by
successful resize_offset, resize_end, set and copy_large operations,
effective_len is a multiple of 32 and len(data) ≤ limit; effective_len
need not bound len(data), because set materialises the buffer without
touching effective_len. -/
theorem claim5_memory_invariant (limit : Nat) (ops : List MemOp) (m : Memory)
    (h : Memory.applyOps (Memory.new limit) ops = some m) :
    m.effective_len % 32 = 0 ∧ m.data.length ≤ m.limit :=
  Memory.applyOps_invariant ops (Memory.new limit) (by simp [Memory.new]) m h

/-- Witness for C5: a concrete reachable memory. -/
theorem claim5_witness :
    (⟨[], 32, 64⟩ : Memory).effective_len % 32 = 0 ∧
    (⟨[], 32, 64⟩ : Memory).data.length ≤ (⟨[], 32, 64⟩ : Memory).limit :=
  claim5_memory_invariant 64 [MemOp.resize_end 1] ⟨[], 32, 64⟩ (by decide)

/-- Claim C6 (code bug, evaluated at the failing input): PUSH2 at position 0
of the two-byte code [0x61, 0xAB] has one payload byte available; the
machine pushes 0xAB (the available bytes read as a big-endian value, i.e.
zero-padded on the LEFT) and advances the program counter by 3, whereas the
claim requires the value zero-padded on the right, 0xAB00. -/
theorem claim6_push_pads_left :
    (pushEval [0x61, 0xAB] (Stack.new 1024) 2 0).1 = Control.continue1 3 ∧
    (pushEval [0x61, 0xAB] (Stack.new 1024) 2 0).2.data = [0xAB] ∧
    u256_from_be ([0xAB] ++ List.replicate 1 0) = 0xAB00 ∧
    (0xAB : Nat) ≠ 0xAB00 := by
  decide

/-- Claim C7: with net metering enabled (and the EIP-2200 stipend check
passing, values per the spec schedule), the SSTORE charge is 800 when
current = new; otherwise 20000 (original zero) or 5000 (original nonzero)
when original = current; otherwise 800. -/
theorem claim7_sstore_net_metering_cost (cfg : Config) (O C N gas : Nat)
    (hmeter : cfg.sstore_gas_metering = true) (hest : cfg.estimate = false)
    (hsload : cfg.gas_sload = 800) (hset : cfg.gas_sstore_set = 20000)
    (hreset : cfg.gas_sstore_reset = 5000)
    (hstip : ¬ (cfg.sstore_revert_under_stipend = true ∧ gas < cfg.call_stipend)) :
    gas_cost cfg (GasCost.SStore O C N) gas
      = .ok (if C = N then 800 else if O = C then (if O = 0 then 20000 else 5000) else 800) := by
  unfold gas_cost
  rw [hest]
  simp only [Bool.false_eq_true, if_false]
  unfold sstore_cost
  rw [hmeter]
  simp only [if_pos rfl]
  rw [if_neg hstip]
  by_cases hCN : C = N
  · simp [hCN, hsload]
  · have hNC : ¬ N = C := fun h => hCN h.symm
    simp only [if_neg hNC, if_neg hCN]
    by_cases hOC : O = C
    · simp [hOC, hset, hreset]
    · simp [hOC, hsload]

/-- Witness for C7: a fresh-slot write (original = current = 0, new = 5)
under the Istanbul schedule with 2300 gas remaining charges 20000. -/
theorem claim7_witness :
    gas_cost istanbulConfig (GasCost.SStore 0 0 5) 2300 = .ok 20000 := by
  rw [claim7_sstore_net_metering_cost istanbulConfig 0 0 5 2300 rfl rfl rfl rfl rfl (by decide)]
  rfl

/-- Claim C8: a poisoned gasometer reports gas 0, refunded gas 0 and total
used gas equal to the gas limit, and every charging operation returns an
error and leaves the state poisoned. -/
theorem claim8_gasometer_poisoning (cfg : Config) (g : Gasometer) (hp : g.inner = none) :
    (g.gas = 0 ∧ g.refunded_gas = 0 ∧ g.total_used_gas = g.gas_limit) ∧
    ∀ op : GasOp, (∃ e, (g.applyRecord cfg op).1 = .error e) ∧
      ((g.applyRecord cfg op).2).inner = none := by
  obtain ⟨gl, inner⟩ := g
  simp only at hp
  subst hp
  refine ⟨⟨rfl, rfl, rfl⟩, ?_⟩
  intro op
  cases op with
  | cost c =>
    simp only [Gasometer.applyRecord, Gasometer.record_cost]
    split
    · exact ⟨⟨_, rfl⟩, rfl⟩
    · exact ⟨⟨_, rfl⟩, rfl⟩
  | refund r =>
    exact ⟨⟨_, rfl⟩, rfl⟩
  | deposit l =>
    simp only [Gasometer.applyRecord, Gasometer.record_deposit, Gasometer.record_cost]
    split
    · exact ⟨⟨_, rfl⟩, rfl⟩
    · exact ⟨⟨_, rfl⟩, rfl⟩
  | stipend st =>
    exact ⟨⟨_, rfl⟩, rfl⟩
  | transaction t =>
    simp only [Gasometer.applyRecord, Gasometer.record_transaction]
    split
    · exact ⟨⟨_, rfl⟩, rfl⟩
    · exact ⟨⟨_, rfl⟩, rfl⟩
  | dynamic c mcost =>
    exact ⟨⟨_, rfl⟩, rfl⟩

/-- Witness for C8: a concrete poisoned gasometer under the Istanbul
schedule. -/
theorem claim8_witness :
    (⟨42, none⟩ : Gasometer).gas = 0 ∧
    (∃ e, ((⟨42, none⟩ : Gasometer).applyRecord istanbulConfig (.cost 5)).1 = .error e) ∧
    ((⟨42, none⟩ : Gasometer).applyRecord istanbulConfig (.cost 5)).2.inner = none :=
  ⟨(claim8_gasometer_poisoning istanbulConfig ⟨42, none⟩ rfl).1.1,
    ((claim8_gasometer_poisoning istanbulConfig ⟨42, none⟩ rfl).2 (.cost 5)).1,
    ((claim8_gasometer_poisoning istanbulConfig ⟨42, none⟩ rfl).2 (.cost 5)).2⟩

/-- Claim C9: after a successful set(o, v, Some k) with len(v) ≤ k,
get(o, k) returns v followed by k - len(v) zero bytes; and for every
offset and size, get returns exactly size bytes, with bytes beyond the
buffer length read as zero. -/
theorem claim9_memory_set_get :
    (∀ (m : Memory) (o : Nat) (v : List Nat) (k : Nat) (m' : Memory), v.length ≤ k →
      m.set o v (some k) = .ok m' → m'.get o k = v ++ List.replicate (k - v.length) 0) ∧
    (∀ (m : Memory) (o s : Nat), (m.get o s).length = s ∧
      ∀ i, i < s → m.data.length ≤ o + i → (m.get o s).getD i 0 = 0) :=
  ⟨fun m o v k m' hv h => Memory.get_after_set m o v k m' hv h,
    fun m o s => ⟨Memory.get_length m o s,
      fun i hi hb => Memory.get_zero_beyond m o s i hi hb⟩⟩

/-- Witness for C9: concrete set then get with zero padding, and an
out-of-buffer read returning zero. -/
theorem claim9_witness :
    (⟨[0, 5, 0], 0, 64⟩ : Memory).get 1 2 = [5] ++ List.replicate 1 0 ∧
    ((Memory.new 0).get 0 3).getD 1 0 = 0 :=
  ⟨claim9_memory_set_get.1 (Memory.new 64) 1 [5] 2 ⟨[0, 5, 0], 0, 64⟩ (by decide) (by rfl),
    (claim9_memory_set_get.2 (Memory.new 0) 0 3).2 1 (by decide) (by decide)⟩

/-- Claim C10: after a successful mark_delete(a, t), a is in the deleted
set and its overlay balance is zero; when t differs from a the balance of
t grows by the pre-call balance of a; when t equals a the whole pre-call
balance of a is destroyed, credited to no account. -/
theorem claim10_mark_delete (B : Backend) (e : Executor) (a t : Nat) (e' : Executor)
    (h : e.mark_delete B a t = (.ok (), e')) :
    a ∈ e'.deleted ∧
    (lookupAcc e'.state a).map (fun acc => acc.basic.balance) = some 0 ∧
    (t ≠ a → e'.balance B t = e.balance B t + e.balance B a) ∧
    (t = a → e'.balance B a = 0 ∧ ∀ x, x ≠ a → e'.balance B x = e.balance B x) := by
  obtain ⟨ew, hwd, hw0, hwne, hwdel⟩ := withdraw_self_spec B e a
  obtain ⟨hd0, hdne, hddel⟩ := deposit_spec B ew t (e.balance B a)
  simp only [Executor.mark_delete, Executor.transfer] at h
  rw [hwd] at h
  simp only [Prod.mk.injEq, true_and] at h
  subst h
  set dep := ew.deposit B t (e.balance B a) with hdepdef
  constructor
  · simp only
    split
    · rename_i hmemdel
      exact hmemdel
    · simp
  constructor
  · rw [lookup_insertAcc_self]
    simp
  constructor
  · intro hta
    apply balance_of_map
    simp only
    rw [lookup_insertAcc_ne _ _ _ _ hta, ensure_lookup_ne B dep a t hta, hd0,
      balance_congr B ew e t (hwne t hta)]
  · intro hta
    subst hta
    constructor
    · apply balance_of_map
      simp only
      rw [lookup_insertAcc_self]
      simp
    · intro x hx
      apply balance_congr
      simp only
      rw [lookup_insertAcc_ne _ _ _ _ hx, ensure_lookup_ne B dep t x hx, hdne x hx, hwne x hx]

/-- Witness for C10: a backend with balance 100 everywhere, empty overlay,
self-destruct of account 1 to account 2. -/
theorem claim10_witness :
    1 ∈ ([1] : List Nat) ∧
    (lookupAcc [(1, ⟨⟨0, 0⟩, none, none, [], false⟩), (2, ⟨⟨200, 0⟩, none, none, [], false⟩)] 1).map
        (fun acc => acc.basic.balance) = some 0 ∧
    Executor.balance ⟨fun _ => ⟨100, 0⟩⟩
        ⟨Gasometer.new 0,
          [(1, ⟨⟨0, 0⟩, none, none, [], false⟩), (2, ⟨⟨200, 0⟩, none, none, [], false⟩)],
          [1], [], false, none⟩ 2
      = Executor.balance ⟨fun _ => ⟨100, 0⟩⟩ ⟨Gasometer.new 0, [], [], [], false, none⟩ 2
        + Executor.balance ⟨fun _ => ⟨100, 0⟩⟩ ⟨Gasometer.new 0, [], [], [], false, none⟩ 1 := by
  have h := claim10_mark_delete ⟨fun _ => ⟨100, 0⟩⟩ ⟨Gasometer.new 0, [], [], [], false, none⟩ 1 2
    ⟨Gasometer.new 0,
      [(1, ⟨⟨0, 0⟩, none, none, [], false⟩), (2, ⟨⟨200, 0⟩, none, none, [], false⟩)],
      [1], [], false, none⟩ rfl
  exact ⟨h.1, h.2.1, h.2.2.1 (by decide)⟩

end Evm
